import Mathlib

/-!
Verification of the sqlite3 dialect adapter (src/clients/sqlite3.js):
query grammar, schema grammar and connection manager. JavaScript values
appearing in rows are embedded as `JsVal`; a row object is an ordered
association list of fields; compilation functions that can throw are
embedded in `Except String`.
-/

namespace KnexSqlite3

/-- A JavaScript value as it can occur in a row or as a column default. -/
inductive JsVal where
  | num (n : Int)
  | str (s : String)
  | bool (b : Bool)
  | null
  | undefined
deriving DecidableEq, Repr

/-- JavaScript truthiness of a `JsVal`: 0, the empty string, false, null
and undefined are falsy, everything else truthy. -/
def JsVal.truthy : JsVal → Bool
  | .num n => n != 0
  | .str s => s != ""
  | .bool b => b
  | .null => false
  | .undefined => false

/-- A row object: ordered association list from column name to value
(JavaScript objects preserve insertion order of string keys). -/
abbrev Row := List (String × JsVal)

/-- The keys of a row in insertion order (`_.keys(values[0])`). -/
def jsKeys (r : Row) : List String := r.map Prod.fst

/-- JavaScript property read `r[k]`: first binding wins, `undefined`
when the key is absent. -/
def jsGet (r : Row) (k : String) : JsVal :=
  match r.find? (fun p => p.1 == k) with
  | some p => p.2
  | none => .undefined

/-- grammar.wrapValue: double-quotes an identifier; the wildcard is
returned unquoted. -/
def wrapValue (value : String) : String :=
  if value != "*" then "\"" ++ value ++ "\"" else "*"

/-- Modelled from the spec: identifier wrapping is supplied by the external
query-builder core (absent from src/); on a plain identifier it applies the
dialect wrapValue override. -/
def wrap (value : String) : String := wrapValue value

/-- Modelled from the spec: table-name wrapping supplied by the external
query-builder core (absent from src/), applying the dialect wrapValue. -/
def wrapTable (table : String) : String := wrapValue table

/-- Modelled from the spec: column-name list formatting supplied by the
external query-builder core (absent from src/): each name wrapped, joined
with a comma. -/
def columnize (columns : List String) : String :=
  String.intercalate ", " (columns.map wrap)

/-- Modelled from the spec: parameter-list construction supplied by the
external query-builder core (absent from src/): one placeholder per value,
comma-joined. -/
def parameterize (r : Row) : String :=
  String.intercalate ", " (r.map (fun _ => "?"))

/-- One entry of an order-by list. -/
structure OrderSpec where
  column : String
  direction : String
deriving DecidableEq, Repr

/-- grammar.compileOrders: nothing for an empty list, otherwise
"order by" with each wrapped column followed by "collate nocase" and its
direction, comma-joined. -/
def compileOrders (orders : List OrderSpec) : Option String :=
  if orders.length = 0 then none
  else some ("order by " ++ String.intercalate ", "
    (orders.map (fun order => wrap order.column ++ " collate nocase " ++ order.direction)))

/-- Modelled from the spec: the shared generic single-row insert compiler
(Grammar.prototype.compileInsert in ../knex, a file of this repository that
is not under src/), producing the usual insert-values statement for the
single row. -/
def Grammar.compileInsert (table : String) (values : List Row) : String :=
  "insert into " ++ wrapTable table ++ " (" ++ columnize (jsKeys (values.headD [])) ++
    ") values (" ++ parameterize (values.headD []) ++ ")"

/-- grammar.compileInsert: one row delegates to the generic compiler;
several rows compile to a union of select clauses, one per row, with the
column names and order taken from the first row. -/
def compileInsert (table : String) (values : List Row) : String :=
  if values.length = 1 then Grammar.compileInsert table values
  else
    let keys := jsKeys (values.headD [])
    let names := columnize keys
    let columns := keys.map (fun column => "? as " ++ wrap column)
    let joinedColumns := String.intercalate ", " columns
    let blocks := values.map (fun _ => joinedColumns)
    "insert into " ++ wrapTable table ++ " (" ++ names ++ ") select " ++
      String.intercalate " union select " blocks

/-- Modelled from the spec: the bound parameter list for an insert is built
by the external query-builder core (absent from src/): parameters are bound
positionally, row by row, in the order of the generated placeholders, which
list the first row's keys in their original order. -/
def insertBindings (values : List Row) : List JsVal :=
  let keys := jsKeys (values.headD [])
  (values.map (fun r => keys.map (fun k => jsGet r k))).flatten

/-- The module-level identifier `query` read on line 138 of the source is
never defined anywhere in the file: reading `query.from` raises a
ReferenceError at run time. -/
def jsVarQuery : Option Row := none

/-- grammar.compileTruncate, embedded faithfully: the first statement is
keyed by the descriptor's own table field, but the second statement reads
`query.from` where `query` is the undefined module identifier above, so the
whole call throws before returning the statement map. -/
def compileTruncate (qbFrom : String) : Except String (List (String × List JsVal)) :=
  match jsVarQuery with
  | none => Except.error "ReferenceError: query is not defined"
  | some q =>
      Except.ok [("delete from sqlite_sequence where name = ?", [JsVal.str qbFrom]),
                 ("delete from " ++ wrapTable (match jsGet q "from" with
                   | JsVal.str s => s
                   | _ => ""), [])]

/-- The truncate compilation as the claim states it: two statements, both
referencing the descriptor's table field; the sequence-table delete is
parameterized by the table name, the row delete has no parameters. -/
def compileTruncateClaimed (qbFrom : String) : List (String × List JsVal) :=
  [("delete from sqlite_sequence where name = ?", [JsVal.str qbFrom]),
   ("delete from " ++ wrapTable qbFrom, [])]

/-! Schema grammar (exports.schemaGrammar). -/

/-- The semantic column types the schema grammar maps to dialect types. -/
inductive ColType where
  | string | text | integer | float | decimal | boolean | enum
  | date | datetime | time | timestamp | binary
deriving DecidableEq, Repr

/-- The type* methods of the schema grammar: the fixed dialect type for
each semantic column type. -/
def typeFor : ColType → String
  | .string => "varchar"
  | .text => "text"
  | .integer => "integer"
  | .float => "float"
  | .decimal => "float"
  | .boolean => "tinyint"
  | .enum => "varchar"
  | .date => "date"
  | .datetime => "datetime"
  | .time => "time"
  | .timestamp => "datetime"
  | .binary => "blob"

/-- A column definition inside a blueprint. -/
structure ColumnDef where
  name : String
  type : ColType
  nullable : Bool := false
  defaultValue : JsVal := .undefined
  autoIncrement : Bool := false
deriving DecidableEq, Repr

/-- A schema command of a blueprint; fields not used by a given variant
are left at their defaults. The source field `on` of a foreign command is
named onTable here, and `to` of a rename command toName, because both
words are reserved in Lean. -/
structure Command where
  name : String
  columns : List String := []
  index : String := ""
  onTable : String := ""
  references : List String := []
  toName : String := ""
deriving DecidableEq, Repr

/-- A blueprint: table name, ordered columns, ordered commands. -/
structure Blueprint where
  table : String
  columns : List ColumnDef := []
  commands : List Command := []
deriving DecidableEq, Repr

/-- schemaGrammar.modifyNullable: always an explicit null / not null. -/
def modifyNullable (_blueprint : Blueprint) (column : ColumnDef) : String :=
  if column.nullable then " null" else " not null"

/-- Modelled from the spec: getDefaultValue from the external query-builder
core (absent from src/), rendering a default value as literal text. -/
def getDefaultValue : JsVal → String
  | .num n => toString n
  | .str s => s
  | .bool b => if b then "true" else "false"
  | .null => "null"
  | .undefined => "undefined"

/-- schemaGrammar.modifyDefault: only a truthy defaultValue produces a
clause (`if (column.defaultValue)` is JavaScript truthiness). -/
def modifyDefault (_blueprint : Blueprint) (column : ColumnDef) : Option String :=
  if column.defaultValue.truthy then
    some (" default \x27" ++ getDefaultValue column.defaultValue ++ "\x27")
  else none

/-- schemaGrammar.modifyIncrement: only an integer auto-increment column
gets the inline primary-key autoincrement clause. -/
def modifyIncrement (_blueprint : Blueprint) (column : ColumnDef) : Option String :=
  if column.type = ColType.integer ∧ column.autoIncrement then
    some " primary key autoincrement"
  else none

/-- Modelled from the spec: column enumeration by the external query-builder
core (absent from src/): each column is its wrapped name, the dialect type,
then the modifiers in the fixed order Nullable, Default, Increment. -/
def getColumn (blueprint : Blueprint) (column : ColumnDef) : String :=
  wrap column.name ++ " " ++ typeFor column.type
    ++ modifyNullable blueprint column
    ++ (modifyDefault blueprint column).getD ""
    ++ (modifyIncrement blueprint column).getD ""

/-- Modelled from the spec: the compiled column definition list, one entry
per blueprint column, in declaration order. -/
def getColumns (blueprint : Blueprint) : List String :=
  blueprint.columns.map (getColumn blueprint)

/-- Modelled from the spec: command lookup by name supplied by the external
query-builder core (absent from src/): all commands with the given name,
in order. -/
def getCommandsByName (blueprint : Blueprint) (name : String) : List Command :=
  blueprint.commands.filter (fun c => c.name == name)

/-- Modelled from the spec: single command lookup by name supplied by the
external query-builder core (absent from src/): the first command with the
given name, if any. -/
def getCommandByName (blueprint : Blueprint) (name : String) : Option Command :=
  (getCommandsByName blueprint name).head?

/-- The inline clause added for one foreign command inside the create-table
statement. -/
def foreignClause (foreign : Command) : String :=
  ", foreign key(" ++ columnize foreign.columns ++ ") references "
    ++ wrapTable foreign.onTable ++ "(" ++ columnize foreign.references ++ ")"

/-- schemaGrammar.addForeignKeys: accumulates one inline clause per foreign
command of the blueprint, in order. -/
def addForeignKeys (blueprint : Blueprint) : String :=
  (getCommandsByName blueprint "foreign").foldl
    (fun sql foreign => sql ++ foreignClause foreign) ""

/-- schemaGrammar.addPrimaryKeys: the inline primary-key clause for the
blueprint's primary command, if present (undefined otherwise). -/
def addPrimaryKeys (blueprint : Blueprint) : Option String :=
  match getCommandByName blueprint "primary" with
  | some primary => some (", primary key (" ++ columnize primary.columns ++ ")")
  | none => none

/-- schemaGrammar.compileCreateTable: one create-table statement holding
the column definitions, then the inline foreign-key clauses, then the
inline primary-key clause. -/
def compileCreateTable (blueprint : Blueprint) : String :=
  let columns := String.intercalate ", " (getColumns blueprint)
  let sql := "create table " ++ wrapTable blueprint.table ++ " (" ++ columns
  let sql := sql ++ addForeignKeys blueprint
  let sql := sql ++ (addPrimaryKeys blueprint).getD ""
  sql ++ ")"

/-- schemaGrammar.compileDropColumn: unconditionally throws. -/
def compileDropColumn (_blueprint : Blueprint) (_command : Command) :
    Except String String :=
  Except.error "Drop column not supported for SQLite."

/-! Connection manager (exports.initialize / exports.query). -/

/-- The effective pool settings after merging the defaults with the
caller-supplied overrides. -/
structure PoolSettings where
  max : Nat
  min : Nat
  idleTimeoutMillis : Nat
deriving DecidableEq, Repr

/-- Caller-supplied pool overrides merged over the defaults by _.extend. -/
structure PoolOverrides where
  max : Option Nat := none
  min : Option Nat := none
  idleTimeoutMillis : Option Nat := none
deriving DecidableEq, Repr

/-- The `pool` entry of the options hash: absent, the literal false, or a
hash of overrides. -/
inductive PoolOption where
  | absent
  | disabled
  | settings (overrides : PoolOverrides)
deriving DecidableEq, Repr

/-- The options hash passed to the initialization entry point. -/
structure Options where
  connection : Option String := none
  debug : Bool := false
  pool : PoolOption := .absent
deriving DecidableEq, Repr

/-- The module-level `pool` variable: undefined before initialization,
the literal false when pooling is disabled, or a configured pool. -/
inductive PoolVar where
  | undef
  | disabled
  | configured (settings : PoolSettings)
deriving DecidableEq, Repr

/-- The module-level mutable state of the connection manager:
`var init, debug, pool, connection, connectionSettings` — all start
undefined. -/
structure ManagerState where
  pool : PoolVar := .undef
  connection : Option Nat := none
  connectionSettings : Option String := none
  debug : Bool := false
deriving DecidableEq, Repr

/-- The state of the module before any call: every variable undefined. -/
def initState : ManagerState := {}

/-- exports.initialize: returns immediately, touching nothing, when the
options carry no connection setting; otherwise stores the settings and
either a single connection (pool === false) or a pool configured from the
defaults max 10, min 2, idleTimeoutMillis 30000 extended with the
caller-supplied pool options. -/
def initializeModule (st : ManagerState) (options : Options) : ManagerState :=
  match options.connection with
  | none => st
  | some conn =>
    let st := { st with connectionSettings := some conn, debug := options.debug }
    match options.pool with
    | .disabled => { st with pool := .disabled, connection := some 1 }
    | .absent =>
        let ps : PoolSettings := PoolSettings.mk 10 2 30000
        { st with pool := PoolVar.configured ps }
    | .settings o =>
        let ps : PoolSettings :=
          PoolSettings.mk (o.max.getD 10) (o.min.getD 2) (o.idleTimeoutMillis.getD 30000)
        { st with pool := PoolVar.configured ps }

/-- What the engine driver reports to the statement callback: the error if
any, the row set (for the all method), and — only when present as an own
property of the statement context — the last-inserted row id, with the
affected-row count. -/
structure EngineReply where
  err : Option String := none
  rows : List Row := []
  lastID : Option Int := none
  changes : Int := 0
deriving DecidableEq, Repr

/-- The response value handed to the caller's callback: either the full
row set or the synthesized insertId / changes record. -/
inductive JsResp where
  | rows (rs : List Row)
  | runInfo (insertId : Int) (changes : Int)
  | undef
deriving DecidableEq, Repr

/-- An observable step of one exports.query call, used to state the
acquire / release discipline. -/
inductive Event where
  | acquire (cid : Nat)
  | exec (cid : Nat) (method : String)
  | release (cid : Nat)
  | callback (hasErr : Bool)
deriving DecidableEq, Repr

/-- exports.query, embedded as a trace of events plus the delivered
outcome. A passed-in connection is used directly (its run callback reports
only the error). Otherwise the code reads `pool.acquire`: before
initialization `pool` is undefined and the property read throws; with
pooling disabled `pool` is the literal false and the read throws too. On a
configured pool, an acquire error is re-thrown; on success the statement
runs with method run for insert / update and all otherwise, then the
callback body rebuilds the response when the statement context carries a
lastID, releases the client, and only then delivers (err, resp). -/
def query (st : ManagerState) (passedConn : Option Nat)
    (acq : Except String Nat) (engine : Nat → String → EngineReply)
    (type : String) : List Event × Except String (Option String × JsResp) :=
  match passedConn with
  | some c =>
      let reply := engine c "run"
      ([Event.exec c "run", Event.callback reply.err.isSome],
       Except.ok (reply.err, JsResp.undef))
  | none =>
    match st.pool with
    | .undef =>
        ([], Except.error "TypeError: cannot read property acquire of undefined")
    | .disabled =>
        ([], Except.error "TypeError: cannot read property acquire of false")
    | .configured _ =>
      match acq with
      | .error e => ([], Except.error ("Error: " ++ e))
      | .ok client =>
        let method := if type == "insert" || type == "update" then "run" else "all"
        let reply := engine client method
        let resp := match reply.lastID with
          | some lid => JsResp.runInfo lid reply.changes
          | none => JsResp.rows reply.rows
        ([Event.acquire client, Event.exec client method,
          Event.release client, Event.callback reply.err.isSome],
         Except.ok (reply.err, resp))

/-! Concrete fixtures used by witnesses. -/

/-- Example first row of the multi-row insert from the spec. -/
def rowA : Row := [("a", JsVal.num 1), ("b", JsVal.num 2)]

/-- Example second row of the multi-row insert from the spec. -/
def rowB : Row := [("a", JsVal.num 3), ("b", JsVal.num 4)]

/-- An options hash with a connection setting and default pooling. -/
def optsEx : Options := Options.mk (some "file.db") false PoolOption.absent

/-- An options hash with no connection setting. -/
def optsNoConn : Options := Options.mk none false PoolOption.absent

/-- The manager state reached by initializing with optsEx. -/
def stEx : ManagerState := initializeModule initState optsEx

/-- The default pool settings. -/
def psEx : PoolSettings := PoolSettings.mk 10 2 30000

/-- Example foreign command: org_id referencing orgs(id). -/
def foreignEx : Command := Command.mk "foreign" ["org_id"] "" "orgs" ["id"] ""

/-- Example primary command on the id column. -/
def primaryEx : Command := Command.mk "primary" ["id"] "" "" [] ""

/-- Example users blueprint with one integer column, one foreign command
and one primary command. -/
def bpEx : Blueprint :=
  Blueprint.mk "users"
    [ColumnDef.mk "id" ColType.integer false JsVal.undefined false]
    [foreignEx, primaryEx]

/-- An engine whose run method reports lastID 5 with 2 changes and whose
all method returns one row. -/
def engineEx : Nat → String → EngineReply := fun _ method =>
  if method == "run" then EngineReply.mk none [] (some 5) 2
  else EngineReply.mk none [[("x", JsVal.num 1)]] none 0

/-! Helper lemmas. -/

/-- Looking every key of a row up in that row returns the row's values in
order, provided the keys are distinct. -/
theorem jsGet_keys : ∀ (r : Row), (jsKeys r).Nodup →
    (jsKeys r).map (jsGet r) = r.map Prod.snd := by
  intro r
  induction r with
  | nil => intro _; rfl
  | cons p tl ih =>
    intro h
    obtain ⟨k, x⟩ := p
    have hcons : k ∉ jsKeys tl ∧ (jsKeys tl).Nodup :=
      List.nodup_cons.mp (show (k :: jsKeys tl).Nodup from h)
    have hmem : k ∉ jsKeys tl := hcons.1
    have htl : (jsKeys tl).Nodup := hcons.2
    have hhead : jsGet ((k, x) :: tl) k = x := by
      simp [jsGet]
    have hrest : ∀ c ∈ jsKeys tl, jsGet ((k, x) :: tl) c = jsGet tl c := by
      intro c hc
      have hne : (k == c) = false := by
        refine beq_eq_false_iff_ne.mpr ?_
        intro e
        exact hmem (e ▸ hc)
      simp [jsGet, List.find?, hne]
    calc (jsKeys ((k, x) :: tl)).map (jsGet ((k, x) :: tl))
        = jsGet ((k, x) :: tl) k :: (jsKeys tl).map (jsGet ((k, x) :: tl)) := by
          simp [jsKeys]
      _ = x :: (jsKeys tl).map (jsGet tl) := by
          rw [hhead, List.map_congr_left hrest]
      _ = ((k, x) :: tl).map Prod.snd := by
          rw [ih htl]; rfl

/-- String.join distributes over cons. -/
theorem string_join_cons (a : String) (l : List String) :
    String.join (a :: l) = a ++ String.join l := by
  simp [String.join_eq, String.ext_iff, String.data_append]

/-- Accumulating the foreign-key clauses with a left fold, as the source
loop does, yields the starting string followed by the joined clauses. -/
theorem foldl_clause_eq_join : ∀ (l : List Command) (s : String),
    l.foldl (fun sql f => sql ++ foreignClause f) s
      = s ++ String.join (l.map foreignClause) := by
  intro l
  induction l with
  | nil => intro s; simp [String.join]
  | cons f tl ih =>
    intro s
    calc (f :: tl).foldl (fun sql g => sql ++ foreignClause g) s
        = tl.foldl (fun sql g => sql ++ foreignClause g) (s ++ foreignClause f) := rfl
      _ = s ++ foreignClause f ++ String.join (tl.map foreignClause) := ih _
      _ = s ++ String.join ((f :: tl).map foreignClause) := by
          rw [String.append_assoc, List.map_cons, string_join_cons]

/-- The release / delivery discipline of one exports.query trace: the given
connection is released exactly once, and any callback delivery is preceded
by that release. -/
def releasedOnceBeforeDelivery (tr : List Event) (cid : Nat) : Prop :=
  tr.count (Event.release cid) = 1 ∧
  ∀ j b, tr.get? j = some (Event.callback b) →
    ∃ i, i < j ∧ tr.get? i = some (Event.release cid)

/-! Claim theorems. -/

/-- C2: the claim says both truncate statements reference the same
descriptor's table field. On the code this fails: the second statement
reads the undefined module identifier `query`, so compileTruncate throws a
ReferenceError on every input — here evaluated at the concrete table name
users — instead of returning the two statements the claim (and the intended
behavior, compileTruncateClaimed) describes. -/
theorem compileTruncate_reference_error :
    compileTruncate "users" = Except.error "ReferenceError: query is not defined" ∧
    compileTruncateClaimed "users" =
      [("delete from sqlite_sequence where name = ?", [JsVal.str "users"]),
       ("delete from " ++ wrapValue "users", [])] :=
  ⟨rfl, rfl⟩

/-- C4: for an insert of exactly one row, compileInsert returns exactly the
output of the shared generic single-row insert compiler on the same table
and row. -/
theorem compileInsert_single_delegates (table : String) (row : Row) :
    compileInsert table [row] = Grammar.compileInsert table [row] := by
  simp [compileInsert]

/-- C6: compileDropColumn fails with the unsupported-operation error on
every blueprint and command, and never returns DDL text. -/
theorem compileDropColumn_always_fails (blueprint : Blueprint) (command : Command) :
    compileDropColumn blueprint command =
      Except.error "Drop column not supported for SQLite." ∧
    (compileDropColumn blueprint command).isOk = false :=
  ⟨rfl, rfl⟩

/-- C9: compileOrders produces no clause for the empty list, and for a
non-empty list produces the order-by clause listing, in input order, each
wrapped column followed by collate nocase and its direction, comma-joined. -/
theorem compileOrders_clause :
    compileOrders [] = none ∧
    ∀ (o : OrderSpec) (os : List OrderSpec),
      compileOrders (o :: os) =
        some ("order by " ++ String.intercalate ", "
          ((o :: os).map (fun e => wrap e.column ++ " collate nocase " ++ e.direction))) := by
  refine ⟨rfl, ?_⟩
  intro o os
  simp [compileOrders]

/-- C10: a falsy default value (0, the empty string, false, null,
undefined) makes modifyDefault emit no clause at all; only a truthy default
value produces the quoted default fragment. -/
theorem modifyDefault_truthiness (blueprint : Blueprint) (column : ColumnDef) :
    (column.defaultValue.truthy = false → modifyDefault blueprint column = none) ∧
    (column.defaultValue.truthy = true →
      modifyDefault blueprint column =
        some (" default \x27" ++ getDefaultValue column.defaultValue ++ "\x27")) := by
  constructor <;> intro h <;> simp [modifyDefault, h]

/-- Witness for C10: at concrete columns, the defaults 0, the empty string
and false produce no clause although a default value is present, while the
truthy default 7 produces the quoted fragment. -/
theorem modifyDefault_truthiness_witness :
    (JsVal.num 0).truthy = false ∧
    modifyDefault (Blueprint.mk "t" [] [])
      (ColumnDef.mk "c" ColType.integer false (JsVal.num 0) false) = none ∧
    (JsVal.str "").truthy = false ∧
    modifyDefault (Blueprint.mk "t" [] [])
      (ColumnDef.mk "c" ColType.string false (JsVal.str "") false) = none ∧
    (JsVal.bool false).truthy = false ∧
    modifyDefault (Blueprint.mk "t" [] [])
      (ColumnDef.mk "c" ColType.boolean false (JsVal.bool false) false) = none ∧
    (JsVal.num 7).truthy = true ∧
    modifyDefault (Blueprint.mk "t" [] [])
      (ColumnDef.mk "c" ColType.integer false (JsVal.num 7) false) =
        some " default \x277\x27" := by
  refine ⟨by decide, ?_, by decide, ?_, by decide, ?_, by decide, ?_⟩
  · exact (modifyDefault_truthiness (Blueprint.mk "t" [] [])
      (ColumnDef.mk "c" ColType.integer false (JsVal.num 0) false)).1 (by decide)
  · exact (modifyDefault_truthiness (Blueprint.mk "t" [] [])
      (ColumnDef.mk "c" ColType.string false (JsVal.str "") false)).1 (by decide)
  · exact (modifyDefault_truthiness (Blueprint.mk "t" [] [])
      (ColumnDef.mk "c" ColType.boolean false (JsVal.bool false) false)).1 (by decide)
  · exact ((modifyDefault_truthiness (Blueprint.mk "t" [] [])
      (ColumnDef.mk "c" ColType.integer false (JsVal.num 7) false)).2 (by decide)).trans rfl

/-- C1: a multi-row insert of N greater than one rows sharing the first
row's (distinct) keys compiles to the insert-select statement with exactly
N select clauses joined by union select, each clause listing the first
row's keys in their original order, and the bound parameter list holds
every row's values row-major in that same key order. -/
theorem compileInsert_multirow (table : String) (v w : Row) (vs : List Row)
    (hkeys : ∀ r ∈ w :: vs, jsKeys r = jsKeys v)
    (hnodup : (jsKeys v).Nodup) :
    compileInsert table (v :: w :: vs) =
      "insert into " ++ wrapTable table ++ " (" ++ columnize (jsKeys v) ++ ") select " ++
        String.intercalate " union select "
          (List.replicate (v :: w :: vs).length
            (String.intercalate ", " ((jsKeys v).map (fun c => "? as " ++ wrap c)))) ∧
    insertBindings (v :: w :: vs) =
      ((v :: w :: vs).map (fun r => r.map Prod.snd)).flatten := by
  constructor
  · have hlen : ¬ (v :: w :: vs).length = 1 := by simp
    simp only [compileInsert, if_neg hlen, List.headD_cons]
    rw [List.map_const']
  · have hmap : (v :: w :: vs).map (fun r => (jsKeys v).map (jsGet r))
        = (v :: w :: vs).map (fun r => r.map Prod.snd) := by
      refine List.map_congr_left ?_
      intro r hr
      have hk : jsKeys r = jsKeys v := by
        rcases List.mem_cons.mp hr with h | h
        · rw [h]
        · exact hkeys r h
      rw [← hk]
      exact jsGet_keys r (by rw [hk]; exact hnodup)
    simp only [insertBindings, List.headD_cons]
    rw [hmap]

/-- Witness for C1: the spec's own example — rows a:1,b:2 and a:3,b:4 on
table t give the two-clause union select with parameters 1,2,3,4. -/
theorem compileInsert_multirow_witness :
    jsKeys rowB = jsKeys rowA ∧ (jsKeys rowA).Nodup ∧
    compileInsert "t" [rowA, rowB] =
      "insert into \"t\" (\"a\", \"b\") select ? as \"a\", ? as \"b\" union select ? as \"a\", ? as \"b\"" ∧
    insertBindings [rowA, rowB] =
      [JsVal.num 1, JsVal.num 2, JsVal.num 3, JsVal.num 4] := by
  have h := compileInsert_multirow "t" rowA rowB []
    (by intro r hr; simp only [List.mem_cons, List.not_mem_nil, or_false] at hr
        rw [hr]; decide)
    (by decide)
  exact ⟨by decide, by decide, h.1.trans (by rfl), h.2.trans (by rfl)⟩

/-- C3: through the pooled execute path, for every statement outcome
(success or failure alike) the acquired connection is released exactly
once, and the release happens before the result or error is delivered to
the caller's callback. -/
theorem query_release_discipline (st : ManagerState) (ps : PoolSettings)
    (client : Nat) (engine : Nat → String → EngineReply) (type : String)
    (hp : st.pool = PoolVar.configured ps) :
    releasedOnceBeforeDelivery
      (query st none (Except.ok client) engine type).1 client := by
  have htr : (query st none (Except.ok client) engine type).1 =
      [Event.acquire client,
       Event.exec client (if type == "insert" || type == "update" then "run" else "all"),
       Event.release client,
       Event.callback (engine client
         (if type == "insert" || type == "update" then "run" else "all")).err.isSome] := by
    simp [query, hp]
  rw [releasedOnceBeforeDelivery, htr]
  constructor
  · simp [List.count_cons]
  · intro j b hj
    rcases j with _ | _ | _ | _ | n
    · simp at hj
    · simp at hj
    · simp at hj
    · exact ⟨2, by omega, rfl⟩
    · simp at hj

/-- Witness for C3: on the default-configured manager, both a succeeding
insert and a failing select release connection 1 exactly once before the
delivery. -/
theorem query_release_discipline_witness :
    stEx.pool = PoolVar.configured psEx ∧
    releasedOnceBeforeDelivery (query stEx none (Except.ok 1) engineEx "insert").1 1 ∧
    releasedOnceBeforeDelivery
      (query stEx none (Except.ok 1)
        (fun _ _ => EngineReply.mk (some "SQLITE_ERROR: no such table") [] none 0)
        "select").1 1 :=
  ⟨rfl, query_release_discipline stEx psEx 1 engineEx "insert" rfl,
    query_release_discipline stEx psEx 1
      (fun _ _ => EngineReply.mk (some "SQLITE_ERROR: no such table") [] none 0)
      "select" rfl⟩

/-- C5: on a blueprint whose commands contain one or more foreign commands
and a primary command, compileCreateTable is the single create-table
statement holding the compiled column definitions, then one inline
foreign-key clause per foreign command, then the inline primary-key
clause — no separate alter-table statement is produced. -/
theorem compileCreateTable_inline_constraints (blueprint : Blueprint)
    (primary : Command) (foreigns : List Command)
    (hf : getCommandsByName blueprint "foreign" = foreigns)
    (hfne : foreigns ≠ [])
    (hp : getCommandByName blueprint "primary" = some primary) :
    compileCreateTable blueprint =
      "create table " ++ wrapTable blueprint.table ++ " ("
        ++ String.intercalate ", " (getColumns blueprint)
        ++ String.join (foreigns.map foreignClause)
        ++ (", primary key (" ++ columnize primary.columns ++ ")") ++ ")" := by
  have hfk : addForeignKeys blueprint = String.join (foreigns.map foreignClause) := by
    rw [addForeignKeys, hf, foldl_clause_eq_join]
    simp
  have hpk : (addPrimaryKeys blueprint).getD ""
      = ", primary key (" ++ columnize primary.columns ++ ")" := by
    simp [addPrimaryKeys, hp]
  simp only [compileCreateTable, hfk, hpk]

/-- Witness for C5: a users blueprint with one integer column, one foreign
command and one primary command compiles to the single create-table
statement carrying both inline clauses. -/
theorem compileCreateTable_inline_constraints_witness :
    getCommandsByName bpEx "foreign" = [foreignEx] ∧
    ([foreignEx] : List Command) ≠ [] ∧
    getCommandByName bpEx "primary" = some primaryEx ∧
    compileCreateTable bpEx =
      "create table \"users\" (\"id\" integer not null, foreign key(\"org_id\") references \"orgs\"(\"id\"), primary key (\"id\"))" := by
  refine ⟨rfl, by decide, rfl, ?_⟩
  exact (compileCreateTable_inline_constraints bpEx primaryEx [foreignEx]
    rfl (by decide) rfl).trans rfl

/-- C7 counterexample: after initializing with no connection configuration,
a later execute is not a no-op — it raises a TypeError from reading acquire
on the still-undefined pool, so the call fails instead of silently doing
nothing. -/
theorem query_after_noconn_raises :
    (query (initializeModule initState optsNoConn) none (Except.ok 1)
        engineEx "select").2 =
      Except.error "TypeError: cannot read property acquire of undefined" ∧
    ((query (initializeModule initState optsNoConn) none (Except.ok 1)
        engineEx "select").2).isOk = false :=
  ⟨rfl, rfl⟩

/-- C7 (amended): initializing without a connection configuration leaves
every module variable untouched (the manager stays uninitialized), and a
later pooled execute performs no work and corrupts no state, but raises a
TypeError from the undefined pool rather than being a silent no-op. -/
theorem initialize_noconn_leaves_uninitialized (options : Options)
    (acq : Except String Nat) (engine : Nat → String → EngineReply)
    (type : String) (h : options.connection = none) :
    initializeModule initState options = initState ∧
    query (initializeModule initState options) none acq engine type =
      ([], Except.error "TypeError: cannot read property acquire of undefined") := by
  have h1 : initializeModule initState options = initState := by
    simp [initializeModule, h]
  refine ⟨h1, ?_⟩
  rw [h1]
  rfl

/-- Witness for C7: concrete options with no connection entry leave the
fresh state unchanged and make a later select fail with the TypeError. -/
theorem initialize_noconn_leaves_uninitialized_witness :
    optsNoConn.connection = none ∧
    (initializeModule initState optsNoConn = initState ∧
     query (initializeModule initState optsNoConn) none (Except.ok 1) engineEx "select" =
       ([], Except.error "TypeError: cannot read property acquire of undefined")) :=
  ⟨rfl, initialize_noconn_leaves_uninitialized optsNoConn (Except.ok 1) engineEx "select" rfl⟩

/-- C8: through the pooled execute path, an insert or update mode delivers
the synthesized insertId / changes record built from the engine's reported
last-inserted row id and affected-row count, while any other mode delivers
the full row set returned by the engine's all method; the engine contract
is that only the run statement context carries a lastID. -/
theorem query_mode_result (st : ManagerState) (ps : PoolSettings)
    (client : Nat) (engine : Nat → String → EngineReply) (type : String)
    (lid : Int)
    (hp : st.pool = PoolVar.configured ps)
    (hrun : (engine client "run").lastID = some lid)
    (hall : (engine client "all").lastID = none) :
    ((type = "insert" ∨ type = "update") →
      (query st none (Except.ok client) engine type).2 =
        Except.ok ((engine client "run").err,
          JsResp.runInfo lid (engine client "run").changes)) ∧
    (type ≠ "insert" → type ≠ "update" →
      (query st none (Except.ok client) engine type).2 =
        Except.ok ((engine client "all").err,
          JsResp.rows (engine client "all").rows)) := by
  constructor
  · intro hm
    have hmeth : (type == "insert" || type == "update") = true := by
      rcases hm with h | h <;> simp [h]
    simp [query, hp, hmeth, hrun]
  · intro h1 h2
    have hmeth : (type == "insert" || type == "update") = false := by
      simp only [Bool.or_eq_false_iff, beq_eq_false_iff_ne]
      exact ⟨h1, h2⟩
    simp [query, hp, hmeth, hall]

/-- Witness for C8: on the default-configured manager with a concrete
engine, an insert delivers the insertId 5 with 2 changes and a select
delivers the engine's row set. -/
theorem query_mode_result_witness :
    stEx.pool = PoolVar.configured psEx ∧
    (engineEx 1 "run").lastID = some 5 ∧
    (engineEx 1 "all").lastID = none ∧
    (query stEx none (Except.ok 1) engineEx "insert").2 =
      Except.ok ((engineEx 1 "run").err, JsResp.runInfo 5 (engineEx 1 "run").changes) ∧
    (query stEx none (Except.ok 1) engineEx "select").2 =
      Except.ok ((engineEx 1 "all").err, JsResp.rows (engineEx 1 "all").rows) := by
  refine ⟨rfl, rfl, rfl, ?_, ?_⟩
  · exact (query_mode_result stEx psEx 1 engineEx "insert" 5 rfl rfl rfl).1 (Or.inl rfl)
  · exact (query_mode_result stEx psEx 1 engineEx "select" 5 rfl rfl rfl).2
      (by decide) (by decide)

end KnexSqlite3
